import Mathlib

/-!
Verification development for the MaRS (Modular and Robust Sensor-fusion)
library: a multi-sensor error-state Kalman filter with an out-of-order
measurement buffer.  The repository snapshot contains the pressure-sensor
state type header and the IMU+pose end-to-end test; the buffer and
CoreLogic components are modelled from the specification where noted.
-/

/-- A measurement record carried by the buffer: a timestamp (seconds, exact)
and a scalar measurement value.  Arrival order is the list position. -/
structure Meas where
  ts : ℚ
  z : ℚ
deriving DecidableEq

/-- Timestamp ordering on buffer entries. -/
def tsLe (a b : Meas) : Prop := a.ts ≤ b.ts

instance : DecidableRel tsLe := fun a b => inferInstanceAs (Decidable (a.ts ≤ b.ts))

/-- Modelled from the spec: `Buffer::insert` (§4.2) is missing from the
snapshot.  Inserts an entry in time order; an entry is placed after every
existing entry whose timestamp is less than or equal to its own, so entries
of equal timestamp keep their arrival order (§3 Ordering). -/
def bufInsert (x : Meas) : List Meas → List Meas
  | [] => [x]
  | y :: ys => if y.ts ≤ x.ts then y :: bufInsert x ys else x :: y :: ys

/-- Modelled from the spec: ingesting a sequence of measurements inserts
each one into the buffer in arrival order (§2 data flow). -/
def ingest (l : List Meas) : List Meas :=
  l.foldl (fun b m => bufInsert m b) []

/-- Modelled from the spec: `prune_oldest` (§4.2) drops the oldest entry;
in a time-ordered buffer that is the head. -/
def pruneOldest (b : List Meas) : List Meas := b.tail

/-- Modelled from the spec: `remove_after(index)` (§4.2) removes every
entry after the given index, keeping the prefix up to and including it. -/
def removeAfter (b : List Meas) (i : ℕ) : List Meas := b.take (i + 1)

/-- Modelled from the spec: `clear` (§4.2) releases every entry. -/
def clearBuf : List Meas := []

theorem bufInsert_perm (x : Meas) (l : List Meas) : List.Perm (bufInsert x l) (x :: l) := by
  induction l with
  | nil => rfl
  | cons y ys ih =>
    rw [bufInsert]
    by_cases hle : y.ts ≤ x.ts
    · rw [if_pos hle]
      exact (ih.cons y).trans (List.Perm.swap x y ys)
    · rw [if_neg hle]

theorem bufInsert_sorted {b : List Meas} (hs : b.Sorted tsLe) (x : Meas) :
    (bufInsert x b).Sorted tsLe := by
  induction b with
  | nil => simp [bufInsert, tsLe]
  | cons y ys ih =>
    rw [List.sorted_cons] at hs
    by_cases hle : y.ts ≤ x.ts
    · rw [bufInsert, if_pos hle, List.sorted_cons]
      refine ⟨?_, ih hs.2⟩
      intro b hb
      rcases List.mem_cons.mp ((bufInsert_perm x ys).subset hb) with h | h
      · subst h; exact hle
      · exact hs.1 b h
    · rw [bufInsert, if_neg hle, List.sorted_cons]
      refine ⟨?_, by rw [List.sorted_cons]; exact hs⟩
      intro b hb
      rcases List.mem_cons.mp hb with h | h
      · subst h; exact le_of_not_le hle
      · exact le_trans (le_of_not_le hle) (hs.1 b h)

theorem ingest_go_sorted (l : List Meas) :
    ∀ acc : List Meas, acc.Sorted tsLe →
      (l.foldl (fun b m => bufInsert m b) acc).Sorted tsLe := by
  induction l with
  | nil => intro acc hacc; simpa using hacc
  | cons m ms ih =>
    intro acc hacc
    simpa using ih (bufInsert m acc) (bufInsert_sorted hacc m)

theorem ingest_sorted (l : List Meas) : (ingest l).Sorted tsLe :=
  ingest_go_sorted l [] (by simp)

theorem ingest_go_perm (l : List Meas) :
    ∀ acc : List Meas, List.Perm (l.foldl (fun b m => bufInsert m b) acc) (acc ++ l) := by
  induction l with
  | nil => intro acc; simp
  | cons m ms ih =>
    intro acc
    have h1 : List.Perm (ms.foldl (fun b m => bufInsert m b) (bufInsert m acc)) (bufInsert m acc ++ ms) :=
      ih (bufInsert m acc)
    have h2 : List.Perm (bufInsert m acc ++ ms) ((m :: acc) ++ ms) :=
      (bufInsert_perm m acc).append_right ms
    have h3 : List.Perm ((m :: acc) ++ ms) (acc ++ m :: ms) := by
      simpa using List.perm_middle.symm
    simpa using (h1.trans h2).trans h3

theorem ingest_perm (l : List Meas) : List.Perm (ingest l) l := by
  simpa using ingest_go_perm l []

theorem sorted_perm_nodupKeys_eq :
    ∀ l₁ l₂ : List Meas, List.Perm l₁ l₂ → l₁.Sorted tsLe → l₂.Sorted tsLe →
      (l₁.map Meas.ts).Nodup → l₁ = l₂ := by
  intro l₁
  induction l₁ with
  | nil =>
    intro l₂ hp _ _ _
    exact (List.Perm.nil_eq hp)
  | cons a t ih =>
    intro l₂ hp hs₁ hs₂ hnd
    cases l₂ with
    | nil => simp [List.perm_nil] at hp
    | cons b t₂ =>
      rw [List.sorted_cons] at hs₁ hs₂
      have hab : a = b := by
        rcases List.mem_cons.mp (hp.symm.subset (List.mem_cons_self b t₂)) with h | h
        · exact h.symm
        · have h1 : tsLe a b := hs₁.1 b h
          have h2 : tsLe b a := by
            rcases List.mem_cons.mp (hp.subset (List.mem_cons_self a t)) with h' | h'
            · subst h'; exact le_refl a.ts
            · exact hs₂.1 a h'
          have hts : a.ts = b.ts := le_antisymm h1 h2
          exfalso
          rw [List.map_cons, List.nodup_cons] at hnd
          exact hnd.1 (by rw [hts]; exact List.mem_map_of_mem Meas.ts h)
      subst hab
      have ht : List.Perm t t₂ := hp.cons_inv
      rw [List.map_cons, List.nodup_cons] at hnd
      rw [ih t₂ ht hs₁.2 hs₂.2 hnd.2]

theorem bufInsert_filter (t : ℚ) (x : Meas) :
    ∀ b : List Meas, b.Sorted tsLe →
      (bufInsert x b).filter (fun e => decide (e.ts = t)) =
        b.filter (fun e => decide (e.ts = t)) ++ if x.ts = t then [x] else [] := by
  intro b
  induction b with
  | nil =>
    intro _
    by_cases hx : x.ts = t <;> simp [bufInsert, List.filter, hx]
  | cons y ys ih =>
    intro hs
    rw [List.sorted_cons] at hs
    by_cases hle : y.ts ≤ x.ts
    · rw [bufInsert, if_pos hle]
      simp only [List.filter_cons]
      rw [ih hs.2]
      split <;> simp
    · rw [bufInsert, if_neg hle]
      have hlt : x.ts < y.ts := not_le.mp hle
      by_cases hx : x.ts = t
      · have hnil : (y :: ys).filter (fun e => decide (e.ts = t)) = [] := by
          rw [List.filter_eq_nil_iff]
          intro e he
          simp only [decide_eq_true_eq]
          rcases List.mem_cons.mp he with h | h
          · subst h; exact ne_of_gt (hx ▸ hlt)
          · exact ne_of_gt (lt_of_lt_of_le (hx ▸ hlt) (hs.1 e h))
        simp [List.filter_cons, hx, hnil]
      · simp [List.filter_cons, hx]

theorem ingest_stable (t : ℚ) (l : List Meas) :
    (ingest l).filter (fun e => decide (e.ts = t)) =
      l.filter (fun e => decide (e.ts = t)) := by
  induction l using List.reverseRecOn with
  | nil => rfl
  | append_singleton l x ih =>
    have hfold : ingest (l ++ [x]) = bufInsert x (ingest l) := by
      simp [ingest, List.foldl_append]
    rw [hfold, bufInsert_filter t x (ingest l) (ingest_sorted l), ih, List.filter_append]
    by_cases hx : x.ts = t <;> simp [List.filter, hx]

/-- Modelled from the spec: configured measurement noise covariance `R`
(§4.4 item 4), here for a scalar sensor. -/
def measR : ℚ := 1

/-- Modelled from the spec: a scalar instance of the sensor measurement
function `h(x, s)` (§4.4 item 2); the sensor framework admits nonlinear
measurement models. -/
def hMeas (x : ℚ) : ℚ := x ^ 2

/-- Modelled from the spec: the measurement Jacobian `H(x, s)` (§4.4
item 3) of `hMeas`, relinearized at the current estimate. -/
def Hjac (x : ℚ) : ℚ := 2 * x

/-- Estimator state: scalar mean and covariance. -/
structure KState where
  x : ℚ
  P : ℚ
deriving DecidableEq

/-- Modelled from the spec: the Kalman correction of §4.4 (innovation,
`S = H P H + R`, gain `K = P H / S`, boxplus on the mean, Joseph-form
covariance update), instantiated for a scalar state; the chi-square gate
is omitted, every measurement in scope being accepted. -/
def ekfUpdate (s : KState) (m : Meas) : KState :=
  let y := m.z - hMeas s.x
  let S := Hjac s.x * s.P * Hjac s.x + measR
  let K := s.P * Hjac s.x / S
  { x := s.x + K * y
    P := (1 - K * Hjac s.x) * ((1 - K * Hjac s.x) * s.P) + K * measR * K }

/-- Initial estimator state. -/
def initState : KState := ⟨1, 1⟩

/-- Modelled from the spec: the final Core-State at the buffer tail is the
result of replaying the time-ordered buffer content from the
initialization (§4.5 rule 3, §5 Ordering guarantees). -/
def processAll (l : List Meas) : KState :=
  (ingest l).foldl ekfUpdate initState

/-- Claim C1, as stated, is false: the two ingestion orderings of the
two-element measurement set \x7b(t=0, z=0), (t=0, z=4)\x7d — which differ by
one adjacent swap — yield final states whose mean components differ by
far more than 1e-9, because equal-timestamp entries are kept in arrival
order and nonlinear updates do not commute. -/
theorem C1_counterexample :
    List.Perm [Meas.mk 0 0, Meas.mk 0 4] [Meas.mk 0 4, Meas.mk 0 0] ∧
    ¬ |(processAll [Meas.mk 0 0, Meas.mk 0 4]).x -
        (processAll [Meas.mk 0 4, Meas.mk 0 0]).x| ≤ 1 / 1000000000 := by
  constructor
  · exact List.Perm.swap _ _ _
  · have h1 : (processAll [Meas.mk 0 0, Meas.mk 0 4]).x = 147 / 115 := by
      norm_num [processAll, ingest, bufInsert, ekfUpdate, hMeas, Hjac, measR, initState]
    have h2 : (processAll [Meas.mk 0 4, Meas.mk 0 0]).x = 4037 / 3045 := by
      norm_num [processAll, ingest, bufInsert, ekfUpdate, hMeas, Hjac, measR, initState]
    rw [h1, h2, show (147 : ℚ) / 115 - 4037 / 3045 = -(3328 / 70035) by norm_num,
      abs_neg, abs_of_nonneg (by norm_num : (0 : ℚ) ≤ 3328 / 70035)]
    norm_num

/-- Claim C1 amended: for measurement sets whose timestamps are pairwise
distinct, any two ingestion orderings produce the same final state at the
buffer tail, componentwise to within 1e-9 (indeed exactly); in
particular an adjacent swap in the ingress sequence changes nothing. -/
theorem C1_amended (l₁ l₂ : List Meas) (hp : List.Perm l₁ l₂)
    (hnd : (l₁.map Meas.ts).Nodup) :
    |(processAll l₁).x - (processAll l₂).x| ≤ 1 / 1000000000 ∧
    |(processAll l₁).P - (processAll l₂).P| ≤ 1 / 1000000000 := by
  have h1 : List.Perm (ingest l₁) (ingest l₂) :=
    (ingest_perm l₁).trans (hp.trans (ingest_perm l₂).symm)
  have hnd1 : ((ingest l₁).map Meas.ts).Nodup :=
    (((ingest_perm l₁).map Meas.ts).nodup_iff).mpr hnd
  have heq : processAll l₁ = processAll l₂ := by
    unfold processAll
    rw [sorted_perm_nodupKeys_eq (ingest l₁) (ingest l₂) h1 (ingest_sorted l₁)
      (ingest_sorted l₂) hnd1]
  rw [heq]
  simp

/-- Witness for `C1_amended` at a concrete adjacent swap of a
distinct-timestamp ingress sequence. -/
theorem C1_amended_witness :
    List.Perm [Meas.mk 0 0, Meas.mk 1 4] [Meas.mk 1 4, Meas.mk 0 0] ∧
    ([Meas.mk 0 0, Meas.mk 1 4].map Meas.ts).Nodup ∧
    (|(processAll [Meas.mk 0 0, Meas.mk 1 4]).x -
        (processAll [Meas.mk 1 4, Meas.mk 0 0]).x| ≤ 1 / 1000000000 ∧
      |(processAll [Meas.mk 0 0, Meas.mk 1 4]).P -
        (processAll [Meas.mk 1 4, Meas.mk 0 0]).P| ≤ 1 / 1000000000) :=
  ⟨by decide, by decide, C1_amended _ _ (by decide) (by decide)⟩

/-- Sensor handles registered with CoreLogic: the distinguished
propagation sensor (IMU) and an update sensor (pose). -/
inductive SensorHandle
  | imu
  | pose
deriving DecidableEq

/-- A measurement entry as handed to `ProcessMeasurement`
(buffer_entry_type.h usage in the e2e test): producing sensor, timestamp,
and a scalar payload. -/
structure BufferEntryType where
  sensor_ : SensorHandle
  timestamp_ : ℚ
  data_ : ℚ
deriving DecidableEq

/-- Modelled from the spec: the core nominal state (§3) — position,
velocity, attitude quaternion (components w,x,y,z), gyro and accel
biases. -/
structure CoreStateType where
  p_wi_ : Fin 3 → ℚ
  v_wi_ : Fin 3 → ℚ
  q_wi_ : Fin 4 → ℚ
  b_w_ : Fin 3 → ℚ
  b_a_ : Fin 3 → ℚ

/-- Modelled from the spec: `CoreLogic` (§4.5) — initialization flag, core
nominal state, error-state covariance (summarized here by one scalar
block, the claims only requiring that initialization copy the configured
value), the configured initial covariance, the previous propagation
timestamp and the measurement buffer. -/
structure CoreLogic where
  core_is_initialized_ : Bool
  state_ : CoreStateType
  P_ : ℚ
  initial_cov_ : ℚ
  last_t_ : ℚ
  buffer_ : List BufferEntryType

/-- Modelled from the spec: `CoreLogic::Initialize(p₀, q₀)` (§4.5) seeds
`p_wi = p₀`, `q_wi = q₀`, zero velocity, zero biases and the configured
initial covariance. -/
def CoreLogic.Initialize (cl : CoreLogic) (p0 : Fin 3 → ℚ) (q0 : Fin 4 → ℚ) : CoreLogic :=
  { cl with
    core_is_initialized_ := true
    state_ := { p_wi_ := p0, v_wi_ := fun _ => 0, q_wi_ := q0,
                b_w_ := fun _ => 0, b_a_ := fun _ => 0 }
    P_ := cl.initial_cov_ }

/-- Modelled from the spec: the gravity vector (§4.3), exact rational. -/
def gravity : Fin 3 → ℚ := fun i => if i = 2 then -(981 / 100) else 0

/-- Modelled from the spec: the translational part of the strapdown
propagation (§4.3) — trapezoidal position, gravity on velocity; attitude
and biases are held, their exact update needing transcendental maps. -/
def propagateStep (s : CoreStateType) (dt : ℚ) : CoreStateType :=
  { s with
    p_wi_ := fun i => s.p_wi_ i + s.v_wi_ i * dt + gravity i * dt ^ 2 / 2
    v_wi_ := fun i => s.v_wi_ i + gravity i * dt }

/-- Modelled from the spec: the Kalman position update of the vertical
channel for a height measurement (§4.4 steps 5–7, scalar block). -/
def poseUpdate (cl : CoreLogic) (z : ℚ) : CoreLogic :=
  let K := cl.P_ / (cl.P_ + measR)
  { cl with
    state_ := { cl.state_ with
      p_wi_ := fun i =>
        if i = 2 then cl.state_.p_wi_ i + K * (z - cl.state_.p_wi_ i)
        else cl.state_.p_wi_ i }
    P_ := (1 - K) * cl.P_ }

/-- Modelled from the spec: `CoreLogic::ProcessMeasurement` (§4.5).  While
uninitialized the entry is buffered but not processed (§4.5
Initialization, §7 NotInitialized); once initialized, a
propagation-sensor entry advances the state and an update-sensor entry
applies the Kalman correction. -/
def processMeasurement (cl : CoreLogic) (m : BufferEntryType) : CoreLogic :=
  if cl.core_is_initialized_ then
    match m.sensor_ with
    | SensorHandle.imu =>
      { cl with
        state_ := propagateStep cl.state_ (m.timestamp_ - cl.last_t_)
        last_t_ := m.timestamp_
        buffer_ := cl.buffer_ ++ [m] }
    | SensorHandle.pose =>
      { poseUpdate cl m.data_ with buffer_ := cl.buffer_ ++ [m] }
  else
    { cl with buffer_ := cl.buffer_ ++ [m] }

/-- Claim C3: for every sequence of calls, `ProcessMeasurement` before
`Initialize` leaves the filter state (core state, covariance and the
uninitialized flag) unchanged, and `Initialize(p₀, q₀)` seeds `p_wi = p₀`,
`q_wi = q₀`, zero velocity, zero biases and the configured initial
covariance. -/
theorem C3_uninit_ignores_and_init_seeds (cl : CoreLogic)
    (ms : List BufferEntryType) (p0 : Fin 3 → ℚ) (q0 : Fin 4 → ℚ)
    (h : cl.core_is_initialized_ = false) :
    (ms.foldl processMeasurement cl).state_ = cl.state_ ∧
    (ms.foldl processMeasurement cl).P_ = cl.P_ ∧
    (ms.foldl processMeasurement cl).core_is_initialized_ = false ∧
    (CoreLogic.Initialize cl p0 q0).state_.p_wi_ = p0 ∧
    (CoreLogic.Initialize cl p0 q0).state_.q_wi_ = q0 ∧
    (CoreLogic.Initialize cl p0 q0).state_.v_wi_ = (fun _ => 0) ∧
    (CoreLogic.Initialize cl p0 q0).state_.b_w_ = (fun _ => 0) ∧
    (CoreLogic.Initialize cl p0 q0).state_.b_a_ = (fun _ => 0) ∧
    (CoreLogic.Initialize cl p0 q0).P_ = cl.initial_cov_ := by
  have key : ∀ (l : List BufferEntryType) (c : CoreLogic),
      c.core_is_initialized_ = false →
        (l.foldl processMeasurement c).state_ = c.state_ ∧
        (l.foldl processMeasurement c).P_ = c.P_ ∧
        (l.foldl processMeasurement c).core_is_initialized_ = false := by
    intro l
    induction l with
    | nil => intro c hc; exact ⟨rfl, rfl, hc⟩
    | cons m rest ih =>
      intro c hc
      have hstep : processMeasurement c m =
          { c with buffer_ := c.buffer_ ++ [m] } := by
        unfold processMeasurement
        rw [hc]
        simp
      rw [List.foldl_cons, hstep]
      exact ih { c with buffer_ := c.buffer_ ++ [m] } hc
  obtain ⟨h1, h2, h3⟩ := key ms cl h
  exact ⟨h1, h2, h3, rfl, rfl, rfl, rfl, rfl, rfl⟩

/-- Witness for `C3_uninit_ignores_and_init_seeds` on a concrete
uninitialized CoreLogic and a concrete two-entry call sequence. -/
theorem C3_witness :
    (CoreLogic.mk false ⟨fun _ => 7, fun _ => 7, fun _ => 7, fun _ => 7,
        fun _ => 7⟩ 5 9 0 []).core_is_initialized_ = false ∧
    (([BufferEntryType.mk SensorHandle.imu 1 2,
        BufferEntryType.mk SensorHandle.pose 2 3].foldl processMeasurement
        (CoreLogic.mk false ⟨fun _ => 7, fun _ => 7, fun _ => 7, fun _ => 7,
          fun _ => 7⟩ 5 9 0 [])).state_ =
      (CoreLogic.mk false ⟨fun _ => 7, fun _ => 7, fun _ => 7, fun _ => 7,
        fun _ => 7⟩ 5 9 0 []).state_ ∧
      ([BufferEntryType.mk SensorHandle.imu 1 2,
        BufferEntryType.mk SensorHandle.pose 2 3].foldl processMeasurement
        (CoreLogic.mk false ⟨fun _ => 7, fun _ => 7, fun _ => 7, fun _ => 7,
          fun _ => 7⟩ 5 9 0 [])).P_ =
      (CoreLogic.mk false ⟨fun _ => 7, fun _ => 7, fun _ => 7, fun _ => 7,
        fun _ => 7⟩ 5 9 0 []).P_ ∧
      ([BufferEntryType.mk SensorHandle.imu 1 2,
        BufferEntryType.mk SensorHandle.pose 2 3].foldl processMeasurement
        (CoreLogic.mk false ⟨fun _ => 7, fun _ => 7, fun _ => 7, fun _ => 7,
          fun _ => 7⟩ 5 9 0 [])).core_is_initialized_ = false ∧
      (CoreLogic.Initialize (CoreLogic.mk false ⟨fun _ => 7, fun _ => 7,
          fun _ => 7, fun _ => 7, fun _ => 7⟩ 5 9 0 []) (fun _ => 4)
        (fun _ => 1)).state_.p_wi_ = (fun _ => 4) ∧
      (CoreLogic.Initialize (CoreLogic.mk false ⟨fun _ => 7, fun _ => 7,
          fun _ => 7, fun _ => 7, fun _ => 7⟩ 5 9 0 []) (fun _ => 4)
        (fun _ => 1)).state_.q_wi_ = (fun _ => 1) ∧
      (CoreLogic.Initialize (CoreLogic.mk false ⟨fun _ => 7, fun _ => 7,
          fun _ => 7, fun _ => 7, fun _ => 7⟩ 5 9 0 []) (fun _ => 4)
        (fun _ => 1)).state_.v_wi_ = (fun _ => 0) ∧
      (CoreLogic.Initialize (CoreLogic.mk false ⟨fun _ => 7, fun _ => 7,
          fun _ => 7, fun _ => 7, fun _ => 7⟩ 5 9 0 []) (fun _ => 4)
        (fun _ => 1)).state_.b_w_ = (fun _ => 0) ∧
      (CoreLogic.Initialize (CoreLogic.mk false ⟨fun _ => 7, fun _ => 7,
          fun _ => 7, fun _ => 7, fun _ => 7⟩ 5 9 0 []) (fun _ => 4)
        (fun _ => 1)).state_.b_a_ = (fun _ => 0) ∧
      (CoreLogic.Initialize (CoreLogic.mk false ⟨fun _ => 7, fun _ => 7,
          fun _ => 7, fun _ => 7, fun _ => 7⟩ 5 9 0 []) (fun _ => 4)
        (fun _ => 1)).P_ =
      (CoreLogic.mk false ⟨fun _ => 7, fun _ => 7, fun _ => 7, fun _ => 7,
        fun _ => 7⟩ 5 9 0 []).initial_cov_) :=
  ⟨rfl, C3_uninit_ignores_and_init_seeds _ _ (fun _ => 4) (fun _ => 1) rfl⟩

/-- Claim C4: after every public buffer operation — insert, prune_oldest,
remove_after, clear — the buffer entries are in non-decreasing timestamp
order, and entries of equal timestamp are kept in their arrival order
(ingesting a sequence preserves, for each fixed timestamp, the relative
order of its entries). -/
theorem C4_buffer_order (b : List Meas) (hs : b.Sorted tsLe) (x : Meas) (i : ℕ) :
    (bufInsert x b).Sorted tsLe ∧
    (pruneOldest b).Sorted tsLe ∧
    (removeAfter b i).Sorted tsLe ∧
    clearBuf.Sorted tsLe ∧
    (∀ (t : ℚ) (l : List Meas),
      (ingest l).filter (fun e => decide (e.ts = t)) =
        l.filter (fun e => decide (e.ts = t))) := by
  refine ⟨bufInsert_sorted hs x, ?_, ?_, ?_, fun t l => ingest_stable t l⟩
  · cases b with
    | nil => simp [pruneOldest]
    | cons y ys => exact (List.sorted_cons.mp hs).2
  · exact List.Pairwise.sublist (List.take_sublist _ _) hs
  · simp [clearBuf]

/-- Witness for `C4_buffer_order` on a concrete sorted buffer. -/
theorem C4_witness :
    ([Meas.mk 0 1, Meas.mk 1 2] : List Meas).Sorted tsLe ∧
    ((bufInsert (Meas.mk 0 5) [Meas.mk 0 1, Meas.mk 1 2]).Sorted tsLe ∧
      (pruneOldest [Meas.mk 0 1, Meas.mk 1 2]).Sorted tsLe ∧
      (removeAfter [Meas.mk 0 1, Meas.mk 1 2] 0).Sorted tsLe ∧
      clearBuf.Sorted tsLe ∧
      (∀ (t : ℚ) (l : List Meas),
        (ingest l).filter (fun e => decide (e.ts = t)) =
          l.filter (fun e => decide (e.ts = t)))) :=
  ⟨by decide, C4_buffer_order _ (by decide) _ 0⟩

/-- Base class of the sensor state types: carries the declared covariance
dimension `cov_size_`.  Modelled from the spec: `base_states.h` is not in
the snapshot; §3 says every sensor substate declares a covariance
dimension `k_s`, and the pressure header passes it to this base. -/
structure BaseStates where
  cov_size_ : ℕ

/-- `PressureSensorStateType` (pressure_sensor_state_type.h): the nominal
substate is the single field `p_ip_ ∈ ℝ³`; bias and scale are not part of
the state (assumed zero and one). -/
structure PressureSensorStateType extends BaseStates where
  p_ip_ : Fin 3 → ℚ

/-- The default constructor `PressureSensorStateType()`: passes cov size 3
to `BaseStates` and zeroes `p_ip_`. -/
def PressureSensorStateType.init : PressureSensorStateType :=
  { cov_size_ := 3, p_ip_ := fun _ => 0 }

/-- Rendering of one scalar field into a CSV row.  Stands for streaming
the value with `os.precision(17)`; the digit string itself is not
modelled, only that it is a deterministic function of the value. -/
def fmtScalar (q : ℚ) : String := toString q

/-- `PressureSensorStateType::get_csv_state_header_string`, line by line:
streams "t, " and then the component names. -/
def get_csv_state_header_string : String :=
  "t, " ++ "p_ip_x, p_ip_y, p_ip_z"

/-- `PressureSensorStateType::to_csv_string`, line by line: streams the
timestamp, then ", " followed by each component of `p_ip_`. -/
def PressureSensorStateType.to_csv_string (s : PressureSensorStateType)
    (timestamp : ℚ) : String :=
  fmtScalar timestamp ++ ", " ++ fmtScalar (s.p_ip_ 0) ++ ", " ++
    fmtScalar (s.p_ip_ 1) ++ ", " ++ fmtScalar (s.p_ip_ 2)

/-- Claim C5: the pressure sensor's nominal substate consists exactly of
`p_ip ∈ ℝ³` (a value of the state type is nothing but its `p_ip_` field
beside the declared dimension), and the covariance dimension it declares
is 3, the dimension of the substate vector space. -/
theorem C5_pressure_cov_dim :
    PressureSensorStateType.init.cov_size_ = 3 ∧
    Module.finrank ℚ (Fin 3 → ℚ) = 3 ∧
    ∀ s : PressureSensorStateType, s = ⟨⟨s.cov_size_⟩, s.p_ip_⟩ :=
  ⟨rfl, Module.finrank_fin_fun ℚ, fun _ => rfl⟩

/-- Claim C6: the CSV header of the pressure-sensor state is exactly
"t, p_ip_x, p_ip_y, p_ip_z", and every row emitted by `to_csv_string` is
exactly the four fields — timestamp then the three components of `p_ip`
in order — joined by the separator ", ". -/
theorem C6_csv_row_fields :
    get_csv_state_header_string = "t, p_ip_x, p_ip_y, p_ip_z" ∧
    ∀ (s : PressureSensorStateType) (ts : ℚ),
      PressureSensorStateType.to_csv_string s ts =
        String.intercalate ", " [fmtScalar ts, fmtScalar (s.p_ip_ 0),
          fmtScalar (s.p_ip_ 1), fmtScalar (s.p_ip_ 2)] := by
  refine ⟨rfl, fun s ts => ?_⟩
  simp [PressureSensorStateType.to_csv_string, String.intercalate,
    String.intercalate.go, String.append_assoc]

/-- Claim C9: a default-constructed `PressureSensorStateType` has
`p_ip = (0,0,0)`; bias and scale are not part of the state (a value of
the type has no fields besides the declared dimension and `p_ip_`). -/
theorem C9_default_ctor :
    PressureSensorStateType.init.p_ip_ = (fun _ => 0) ∧
    (∀ i : Fin 3, PressureSensorStateType.init.p_ip_ i = 0) ∧
    ∀ s : PressureSensorStateType, s = ⟨⟨s.cov_size_⟩, s.p_ip_⟩ :=
  ⟨rfl, fun _ => rfl, fun _ => rfl⟩

/-- The call `s.to_csv_string(t)` embedded as a state transformer: the
method is `const` and its body only reads the fields, so the call returns
the row together with the receiver it leaves behind. -/
def to_csv_string_call (s : PressureSensorStateType) (ts : ℚ) :
    String × PressureSensorStateType :=
  (PressureSensorStateType.to_csv_string s ts, s)

/-- Claim C10: calling `to_csv_string` leaves the state unchanged —
`p_ip_` and the declared covariance dimension are identical before and
after — and a repeated call at the same timestamp (on the state the
first call left behind) returns an identical string. -/
theorem C10_to_csv_string_const (s : PressureSensorStateType) (ts : ℚ) :
    (to_csv_string_call s ts).2 = s ∧
    (to_csv_string_call s ts).2.p_ip_ = s.p_ip_ ∧
    (to_csv_string_call s ts).2.cov_size_ = s.cov_size_ ∧
    (to_csv_string_call (to_csv_string_call s ts).2 ts).1 =
      (to_csv_string_call s ts).1 :=
  ⟨rfl, rfl, rfl, rfl⟩
